import Mathlib

/-!
Shallow embedding of the wall-drawing core of the `construct` repository
(`src/components/DrawingPlane.tsx` and `src/components/CadViewport.tsx`).

Modelling conventions:
* Plane points are pairs `(x, z)` of rationals; the source's `Point3` carries a
  `y` coordinate that the core never reads (every geometric computation indexes
  only components 0 and 2, and the drawing plane fixes `y = 0`), so it is
  dropped.
* JavaScript numbers are modelled by exact rationals (and exact reals where a
  transcendental function appears).
* `crypto.randomUUID()` is modelled by a fresh-id counter threaded through the
  state (`nextId`); ids are natural numbers.
* Each React `useState` cell becomes a field of an explicit state record, and
  each event handler becomes a state-transition function; the component's
  closure inputs are explicit parameters.
-/

/-- A point of the drawing plane: the `(x, z)` coordinates. -/
abbrev PointQ := ℚ × ℚ

/-- A wall segment: `{ id, start, end }` from `DrawingPlane.tsx`. -/
structure Segment where
  id : Nat
  start : PointQ
  «end» : PointQ
deriving DecidableEq

/-- Source constant `SNAP_RADIUS = 0.5`. -/
def SNAP_RADIUS : ℚ := 1/2

/-- Source constant `GRID_SIZE = 0.25`. -/
def GRID_SIZE : ℚ := 1/4

/-- Source constant `MIN_ANGLE_DEG = 30`. -/
def MIN_ANGLE_DEG : ℚ := 30

/-- Source constant `MIN_ANGLE_RAD = (MIN_ANGLE_DEG * Math.PI) / 180`. -/
noncomputable def MIN_ANGLE_RAD : ℝ := ((MIN_ANGLE_DEG : ℝ) * Real.pi) / 180

/-- The `1e-6` epsilon used by the segment intersector. -/
def EPS : ℚ := 1/1000000

/-- `snapToGrid` from `DrawingPlane.tsx`: each planar coordinate rounded to the
nearest multiple of `GRID_SIZE` (JavaScript's `Math.round` rounds half toward
`+∞`, as does Mathlib's `round`); the `y` coordinate is passed through
unchanged in the source and dropped here. -/
def snapToGrid (p : PointQ) : PointQ :=
  (((round (p.1 / GRID_SIZE) : ℤ) : ℚ) * GRID_SIZE,
   ((round (p.2 / GRID_SIZE) : ℤ) : ℚ) * GRID_SIZE)

/-- Squared planar distance `dx*dx + dz*dz` between a snap candidate `sp` and
the snapped point, as computed inside `applySnap`. -/
def dSq (sp p : PointQ) : ℚ :=
  (sp.1 - p.1) * (sp.1 - p.1) + (sp.2 - p.2) * (sp.2 - p.2)

/-- The candidate-vertex loop of `applySnap`: starting from
`minDistSq = SNAP_RADIUS ** 2` and `closest = null`, update both whenever
`distSq <= minDistSq`. -/
def snapFold (p : PointQ) : List PointQ → ℚ → Option PointQ → ℚ × Option PointQ
  | [], m, c => (m, c)
  | sp :: rest, m, c =>
      if dSq sp p ≤ m then snapFold p rest (dSq sp p) (some sp)
      else snapFold p rest m c

/-- `applySnap` from `DrawingPlane.tsx` with its closure inputs
(`snapGridEnabled`, `snapPoints`) made explicit: grid-snap when enabled, then
run the candidate loop, and return `closest ?? snapped`. -/
def applySnap (snapGridEnabled : Bool) (snapPoints : List PointQ) :
    Option PointQ → Option PointQ
  | none => none
  | some p =>
      let snapped := if snapGridEnabled then snapToGrid p else p
      if snapPoints.isEmpty then some snapped
      else some (((snapFold snapped snapPoints (SNAP_RADIUS ^ 2) none).2).getD snapped)

/-- `segmentsIntersectionPoint2DWithT` from `DrawingPlane.tsx`: proper interior
crossing of segments `p1p2` and `p3p4`, both parameters restricted to the open
range `(EPS, 1 - EPS)`; a parallel pair (`|denom| < EPS`) reports no hit. On a
hit, returns the intersection point and the parameter `t` along `p1 → p2`. -/
def segmentsIntersectionPoint2DWithT (p1 p2 p3 p4 : PointQ) : Option (PointQ × ℚ) :=
  let x1 := p1.1; let z1 := p1.2
  let x2 := p2.1; let z2 := p2.2
  let x3 := p3.1; let z3 := p3.2
  let x4 := p4.1; let z4 := p4.2
  let denom := (x1 - x2) * (z3 - z4) - (z1 - z2) * (x3 - x4)
  if |denom| < EPS then none
  else
    let t := ((x1 - x3) * (z3 - z4) - (z1 - z3) * (x3 - x4)) / denom
    let u := ((x1 - x3) * (z1 - z2) - (z1 - z3) * (x1 - x2)) / denom
    if EPS < t ∧ t < 1 - EPS ∧ EPS < u ∧ u < 1 - EPS then
      some ((x1 + t * (x2 - x1), z1 + t * (z2 - z1)), t)
    else none

/-- `wouldIntersectExistingWalls` from `DrawingPlane.tsx`: does the candidate
segment properly cross any existing wall? -/
def wouldIntersectExistingWalls (startP endP : PointQ) (segments : List Segment) : Bool :=
  segments.any fun seg =>
    (segmentsIntersectionPoint2DWithT startP endP seg.start seg.«end»).isSome

/-- The commit-time scan of `handleClick` (its first loop): test every wall for
a proper intersection with `startP → p` and keep the hit with the strictly
smallest `t` (on ties the earlier wall wins, because the update uses `<`). -/
def findBestHit (startP p : PointQ) (segments : List Segment) :
    Option ((PointQ × ℚ) × Segment) :=
  segments.foldl
    (fun best seg =>
      match segmentsIntersectionPoint2DWithT startP p seg.start seg.«end» with
      | none => best
      | some res =>
          match best with
          | none => some (res, seg)
          | some (bres, bseg) =>
              if res.2 < bres.2 then some (res, seg) else some (bres, bseg))
    none

/-- The reverse search of `handlePointerMove` for the most recently inserted
wall having the anchor `b` as one of its endpoints
(`[...segments].reverse().find(...)`, comparing planar coordinates exactly). -/
def lastTouching (segments : List Segment) (b : PointQ) : Option Segment :=
  segments.reverse.find? fun seg => decide (seg.start = b ∨ seg.«end» = b)

/-- The angle test of `handlePointerMove`: the source computes
`angle = angleAtVertexDot(a, b, c)` and sets `tooSharp = angle < MIN_ANGLE_RAD`.
Over exact arithmetic that comparison is equivalent to the rational test below
(a zero-length ray gives angle `0`, hence too sharp; otherwise
`acos(clamp(dot/(|u||v|))) < π/6` iff `dot > 0` and `4·dot² > 3·|u|²·|v|²`);
the equivalence with the source's real-number formulation is proved in
`tooSharpQ_eq_true_iff` below. -/
def tooSharpQ (a b c : PointQ) : Bool :=
  let ux := a.1 - b.1
  let uz := a.2 - b.2
  let vx := c.1 - b.1
  let vz := c.2 - b.2
  let dot := ux * vx + uz * vz
  let lenUsq := ux * ux + uz * uz
  let lenVsq := vx * vx + vz * vz
  if lenUsq = 0 ∨ lenVsq = 0 then true
  else decide (0 < dot ∧ 3 * (lenUsq * lenVsq) < 4 * (dot * dot))

/-- `angleAtVertexDot` from `DrawingPlane.tsx`, over exact reals:
`acos(clamp(dot / (hypot(u) · hypot(v)), -1, 1))`, and `0` when either ray has
zero length (`hypot(u) = 0` exactly when `a = b` in the plane). -/
noncomputable def angleAtVertexDot (a b c : PointQ) : ℝ :=
  let ux : ℝ := ((a.1 - b.1 : ℚ) : ℝ)
  let uz : ℝ := ((a.2 - b.2 : ℚ) : ℝ)
  let vx : ℝ := ((c.1 - b.1 : ℚ) : ℝ)
  let vz : ℝ := ((c.2 - b.2 : ℚ) : ℝ)
  let dot := ux * vx + uz * vz
  let lenU := Real.sqrt (ux * ux + uz * uz)
  let lenV := Real.sqrt (vx * vx + vz * vz)
  if a = b ∨ c = b then 0
  else Real.arccos (min 1 (max (-1) (dot / (lenU * lenV))))

/-- The T-junction split inlined in `handleClick` (lines 240-246 of
`DrawingPlane.tsx`), the `splitAndInsert` operation of the spec: replace the
hit wall by `segA = {target.start → interPt}` and
`segB = {interPt → target.end}` and append the connecting segment
`{startP → interPt}`; `idNew`, `idA`, `idB` stand for the three fresh
`crypto.randomUUID()` ids in their order of creation. -/
def splitAndInsert (segments : List Segment) (target : Segment)
    (interPt startP : PointQ) (idNew idA idB : Nat) : List Segment :=
  (segments.flatMap fun s =>
    if s.id = target.id then
      [⟨idA, target.start, interPt⟩, ⟨idB, interPt, target.«end»⟩]
    else [s]) ++ [⟨idNew, startP, interPt⟩]

/-- The transient session state of `DrawingPlane` (its `useState` cells). The
`previewAngle` cell stores the argument triple `(a, b, c)` of the displayed
angle rather than its real value, keeping the state decidable; `none` models
the source's `null`. -/
structure DrawState where
  isDrawing : Bool
  startPoint : Option PointQ
  currentPoint : Option PointQ
  previewAngle : Option (PointQ × PointQ × PointQ)
  previewBlocked : Bool
  canPlaceWall : Bool
deriving DecidableEq

/-- `resetDrawing` from `DrawingPlane.tsx` (also the initial session state). -/
def resetDrawing : DrawState :=
  { isDrawing := false, startPoint := none, currentPoint := none,
    previewAngle := none, previewBlocked := false, canPlaceWall := true }

/-- The whole application state: `CadViewport`'s `useState` cells plus the
drawing session and the fresh-id counter. -/
structure GState where
  isDrawingMode : Bool
  snapGridEnabled : Bool
  segments : List Segment
  history : List (List Segment)
  redoStack : List (List Segment)
  selectedId : Option Nat
  draw : DrawState
  nextId : Nat
deriving DecidableEq

/-- `snapPoints` from `DrawingPlane.tsx`: all segment endpoints in order. -/
def snapPointsOf (segments : List Segment) : List PointQ :=
  segments.flatMap fun s => [s.start, s.«end»]

/-- `pushHistory` from `CadViewport.tsx` (the HistoryManager commit): push the
current wall set onto the undo history, clear the redo stack, and install the
next wall set. -/
def pushHistory (st : GState) (next : List Segment) : GState :=
  { st with history := st.history ++ [st.segments], redoStack := [], segments := next }

/-- The `tooSharp` value computed by `handlePointerMove`: find the most recent
wall touching the anchor `b`; if found, test the angle at `b` between that
wall's far endpoint and the current point `p`; otherwise `false`. -/
def moveTooSharp (segments : List Segment) (b p : PointQ) : Bool :=
  match lastTouching segments b with
  | some seg => tooSharpQ (if seg.start = b then seg.«end» else seg.start) b p
  | none => false

/-- The `previewAngle` value recorded by `handlePointerMove`, as the argument
triple of the displayed angle (`none` when no touching wall is found). -/
def movePreviewAngle (segments : List Segment) (b p : PointQ) :
    Option (PointQ × PointQ × PointQ) :=
  match lastTouching segments b with
  | some seg => some ((if seg.start = b then seg.«end» else seg.start), b, p)
  | none => none

/-- `handlePointerMove` from `DrawingPlane.tsx` as a state transition; `raw` is
the pointer's plane projection (`none` when the ray misses the plane). -/
def handlePointerMove (st : GState) (raw : Option PointQ) : GState :=
  if st.isDrawingMode = false ∨ st.draw.isDrawing = false then st
  else
    match applySnap st.snapGridEnabled (snapPointsOf st.segments) raw with
    | none => st
    | some p =>
        match st.draw.startPoint with
        | none => { st with draw := { st.draw with currentPoint := some p } }
        | some b =>
            let blocked :=
              moveTooSharp st.segments b p || wouldIntersectExistingWalls b p st.segments
            { st with draw :=
                { st.draw with
                    currentPoint := some p,
                    previewAngle := movePreviewAngle st.segments b p,
                    previewBlocked := blocked,
                    canPlaceWall := !blocked } }

/-- `handleClick` from `DrawingPlane.tsx` as a state transition, with the
commit wired to `CadViewport`'s `pushHistory` (its `onChangeSegments`). -/
def handleClick (st : GState) (raw : Option PointQ) : GState :=
  if st.isDrawingMode = false then st
  else
    match applySnap st.snapGridEnabled (snapPointsOf st.segments) raw with
    | none => st
    | some p =>
        if st.draw.isDrawing = false then
          { st with
              selectedId := none,
              draw := { isDrawing := true, startPoint := some p, currentPoint := some p,
                        previewAngle := none, previewBlocked := false, canPlaceWall := true } }
        else
          match st.draw.startPoint with
          | none => st
          | some startP =>
              match findBestHit startP p st.segments with
              | some (res, bestSeg) =>
                  let next := splitAndInsert st.segments bestSeg (snapToGrid res.1) startP
                    st.nextId (st.nextId + 1) (st.nextId + 2)
                  { pushHistory st next with draw := resetDrawing, nextId := st.nextId + 3 }
              | none =>
                  if st.draw.canPlaceWall = false then st
                  else
                    let next := st.segments ++ [⟨st.nextId, startP, p⟩]
                    { pushHistory st next with draw := resetDrawing, nextId := st.nextId + 1 }

/-- `handleUndo` from `CadViewport.tsx`: no-op on an empty history; otherwise
restore the last snapshot, push the current wall set onto the front of the redo
stack, and clear the selection. -/
def handleUndo (st : GState) : GState :=
  match st.history.getLast? with
  | none => st
  | some last =>
      { st with history := st.history.dropLast,
                redoStack := st.segments :: st.redoStack,
                segments := last, selectedId := none }

/-- `handleRedo` from `CadViewport.tsx`: no-op on an empty redo stack;
otherwise restore its first snapshot, push the current wall set onto the
history, and clear the selection. -/
def handleRedo (st : GState) : GState :=
  match st.redoStack with
  | [] => st
  | next :: rest =>
      { st with redoStack := rest, history := st.history ++ [st.segments],
                segments := next, selectedId := none }

/-- `handleDeleteSelected` from `CadViewport.tsx`: no-op when nothing is
selected; otherwise commit the filtered wall set and clear the selection. -/
def handleDeleteSelected (st : GState) : GState :=
  match st.selectedId with
  | none => st
  | some sel =>
      { pushHistory st (st.segments.filter fun s => s.id ≠ sel) with selectedId := none }

/-- `handleEnterDraw` from `CadViewport.tsx`: turn drawing mode on and clear
the selection (the camera call is rendering-only and dropped). -/
def handleEnterDraw (st : GState) : GState :=
  { st with isDrawingMode := true, selectedId := none }

/-- Exiting drawing mode (the `Stop` button / `q` key) combined with the
`useEffect` in `DrawingPlane` that resets the session when the mode turns
off. -/
def handleStopDraw (st : GState) : GState :=
  { st with isDrawingMode := false, draw := resetDrawing }

/-- A click on the rendered wall mesh of segment `i` (the `onClick` of the
`WallSegment` component): ignored while in drawing mode, otherwise it toggles
the selection of that segment. -/
def handleWallClick (st : GState) (i : Nat) : GState :=
  if st.isDrawingMode then st
  else
    match st.segments[i]? with
    | none => st
    | some seg =>
        { st with selectedId := if st.selectedId = some seg.id then none else some seg.id }

/-- The external events the core reacts to. -/
inductive Event where
  | enterDraw
  | stopDraw
  | toggleSnap
  | click (raw : Option PointQ)
  | move (raw : Option PointQ)
  | wallClick (i : Nat)
  | undoEv
  | redoEv
  | deleteEv

/-- One step of the event-driven system. -/
def step (st : GState) : Event → GState
  | .enterDraw => handleEnterDraw st
  | .stopDraw => handleStopDraw st
  | .toggleSnap => { st with snapGridEnabled := !st.snapGridEnabled }
  | .click raw => handleClick st raw
  | .move raw => handlePointerMove st raw
  | .wallClick i => handleWallClick st i
  | .undoEv => handleUndo st
  | .redoEv => handleRedo st
  | .deleteEv => handleDeleteSelected st

/-- The initial state: empty wall set and stacks, no selection, drawing mode
off, grid snapping on. -/
def initState : GState :=
  { isDrawingMode := false, snapGridEnabled := true, segments := [], history := [],
    redoStack := [], selectedId := none, draw := resetDrawing, nextId := 0 }

/-- Run a sequence of events from the initial state. -/
def run (evs : List Event) : GState := evs.foldl step initState

/-- A state is reachable when some event sequence produces it. -/
def Reachable (st : GState) : Prop := ∃ evs, run evs = st

/-- Selection invariant: while drawing mode is on the selection is clear, and
the selected id, when present, belongs to a segment of the current wall
set. -/
def SelInv (st : GState) : Prop :=
  (st.isDrawingMode = true → st.selectedId = none) ∧
  (st.selectedId = none ∨ ∃ seg ∈ st.segments, st.selectedId = some seg.id)

/-- Example fixture: a horizontal wall from `(0,0)` to `(4,0)`. -/
def wallA : Segment := ⟨0, (0, 0), (4, 0)⟩

/-- Example fixture: drawing mode on with `wallA` present, session idle. -/
def stWall : GState :=
  { initState with isDrawingMode := true, segments := [wallA], nextId := 1 }

/-- Example fixture: a drawing session anchored at `b` on top of the state
`st` (the session state a start click at `b` produces). -/
def drawingAt (st : GState) (b : PointQ) : GState :=
  { st with draw := { isDrawing := true, startPoint := some b, currentPoint := some b,
                      previewAngle := none, previewBlocked := false, canPlaceWall := true } }

/-- Example fixture: an empty-walls session at `(0,0)` flagged as blocked. -/
def stBlocked : GState :=
  { initState with
      isDrawingMode := true,
      draw := { isDrawing := true, startPoint := some (0, 0), currentPoint := some (0, 0),
                previewAngle := none, previewBlocked := true, canPlaceWall := false } }

theorem snapToGrid_eval : snapToGrid (3/8, -1/8) = (1/2, 0) := by
  unfold snapToGrid GRID_SIZE
  norm_num [round_eq]

/-- A click while drawing mode is off is ignored. -/
theorem handleClick_mode_off (st : GState) (raw : Option PointQ)
    (h : st.isDrawingMode = false) : handleClick st raw = st := by
  simp [handleClick, h]

/-- The start-click branch of `handleClick`: begin a session at the snapped
point, clearing the selection and the preview flags. -/
theorem handleClick_start (st : GState) (raw : Option PointQ) (b : PointQ)
    (hmode : st.isDrawingMode = true) (hidle : st.draw.isDrawing = false)
    (hsnap : applySnap st.snapGridEnabled (snapPointsOf st.segments) raw = some b) :
    handleClick st raw =
      { st with
          selectedId := none,
          draw := { isDrawing := true, startPoint := some b, currentPoint := some b,
                    previewAngle := none, previewBlocked := false, canPlaceWall := true } } := by
  simp [handleClick, hmode, hidle, hsnap]

/-- The plain-append commit branch of `handleClick`: no junction hit and not
blocked. -/
theorem handleClick_append (st : GState) (raw : Option PointQ) (s p : PointQ)
    (hmode : st.isDrawingMode = true) (hdraw : st.draw.isDrawing = true)
    (hs : st.draw.startPoint = some s)
    (hsnap : applySnap st.snapGridEnabled (snapPointsOf st.segments) raw = some p)
    (hhit : findBestHit s p st.segments = none)
    (hcan : st.draw.canPlaceWall = true) :
    handleClick st raw =
      { pushHistory st (st.segments ++ [⟨st.nextId, s, p⟩]) with
        draw := resetDrawing, nextId := st.nextId + 1 } := by
  simp [handleClick, hmode, hdraw, hs, hsnap, hhit, hcan]

/-- The blocked-commit branch of `handleClick`: no junction hit and blocked. -/
theorem handleClick_blocked (st : GState) (raw : Option PointQ) (s p : PointQ)
    (hmode : st.isDrawingMode = true) (hdraw : st.draw.isDrawing = true)
    (hs : st.draw.startPoint = some s)
    (hsnap : applySnap st.snapGridEnabled (snapPointsOf st.segments) raw = some p)
    (hhit : findBestHit s p st.segments = none)
    (hcan : st.draw.canPlaceWall = false) :
    handleClick st raw = st := by
  simp [handleClick, hmode, hdraw, hs, hsnap, hhit, hcan]

/-- The T-junction commit branch of `handleClick`: a proper-intersection hit
exists, so the split is committed. -/
theorem handleClick_split (st : GState) (raw : Option PointQ) (s : PointQ)
    (res : PointQ × ℚ) (bestSeg : Segment) (p : PointQ)
    (hmode : st.isDrawingMode = true) (hdraw : st.draw.isDrawing = true)
    (hs : st.draw.startPoint = some s)
    (hsnap : applySnap st.snapGridEnabled (snapPointsOf st.segments) raw = some p)
    (hhit : findBestHit s p st.segments = some (res, bestSeg)) :
    handleClick st raw =
      { pushHistory st (splitAndInsert st.segments bestSeg (snapToGrid res.1) s
          st.nextId (st.nextId + 1) (st.nextId + 2)) with
        draw := resetDrawing, nextId := st.nextId + 3 } := by
  simp [handleClick, hmode, hdraw, hs, hsnap, hhit]

/-- C1 (counterexample): the claimed invariant fails on the code — a commit
click at the session's own start point appends a degenerate segment, so a
reachable wall set can contain a segment with `start = end`; `handleClick`
has no minimum-length guard. -/
theorem C1_counterexample :
    ¬ (∀ st : GState, Reachable st → ∀ seg ∈ st.segments, seg.start ≠ seg.«end») := by
  intro h
  have hseg : (run [.enterDraw, .click (some (0, 0)), .click (some (0, 0))]).segments
      = [⟨0, (0, 0), (0, 0)⟩] := by
    simp only [run, List.foldl, step, handleEnterDraw, handleClick, initState, resetDrawing,
      applySnap, snapPointsOf, snapToGrid, findBestHit, pushHistory, GRID_SIZE]
    norm_num
  exact h _ ⟨_, rfl⟩ ⟨0, (0, 0), (0, 0)⟩ (by rw [hseg]; exact List.mem_singleton.mpr rfl) rfl

/-- C1 (amended): the code has no length-epsilon guard at all. On a commit
click whose snapped point equals the session's start (a candidate of length
zero, hence shorter than any epsilon), with no junction hit and the session
unblocked, the degenerate segment `start→start` is appended and committed, so
reachable wall sets can contain degenerate segments. -/
theorem C1_amended_no_length_guard (st : GState) (raw : Option PointQ) (s : PointQ)
    (hmode : st.isDrawingMode = true) (hdraw : st.draw.isDrawing = true)
    (hs : st.draw.startPoint = some s)
    (hsnap : applySnap st.snapGridEnabled (snapPointsOf st.segments) raw = some s)
    (hhit : findBestHit s s st.segments = none)
    (hcan : st.draw.canPlaceWall = true) :
    (handleClick st raw).segments = st.segments ++ [⟨st.nextId, s, s⟩] := by
  rw [handleClick_append st raw s s hmode hdraw hs hsnap hhit hcan]
  simp [pushHistory]

/-- C1 (amended, witness): the degenerate commit at `(0,0)` on an empty wall
set really goes through. -/
theorem C1_amended_witness :
    (handleClick (drawingAt { initState with isDrawingMode := true } (0, 0))
        (some (0, 0))).segments = [⟨0, (0, 0), (0, 0)⟩] := by
  rw [C1_amended_no_length_guard (drawingAt { initState with isDrawingMode := true } (0, 0))
    (some (0, 0)) (0, 0) rfl rfl rfl
    (by norm_num [applySnap, snapPointsOf, snapToGrid, drawingAt, initState, GRID_SIZE, round_eq])
    rfl rfl]
  simp [drawingAt, initState]

/-- C8: a commit click while Drawing with the block flag set
(`canPlaceWall = false`) and no proper-intersection hit against any existing
wall is a complete no-op: the whole state — wall set, history, redo stack, and
the Drawing session with its start, current and flags — is unchanged. -/
theorem C8_blocked_click_is_noop (st : GState) (raw : Option PointQ) (s p : PointQ)
    (hmode : st.isDrawingMode = true) (hdraw : st.draw.isDrawing = true)
    (hs : st.draw.startPoint = some s)
    (hsnap : applySnap st.snapGridEnabled (snapPointsOf st.segments) raw = some p)
    (hhit : findBestHit s p st.segments = none)
    (hblocked : st.draw.canPlaceWall = false) :
    handleClick st raw = st :=
  handleClick_blocked st raw s p hmode hdraw hs hsnap hhit hblocked

/-- C8 (witness): a blocked commit click at `(0,0)` leaves the blocked session
state untouched. -/
theorem C8_witness : handleClick stBlocked (some (0, 0)) = stBlocked :=
  C8_blocked_click_is_noop stBlocked (some (0, 0)) (0, 0) (0, 0) rfl rfl rfl
    (by norm_num [applySnap, snapPointsOf, snapToGrid, stBlocked, initState, GRID_SIZE, round_eq])
    rfl rfl

/-- C3: on a commit click while Drawing whose candidate segment has a proper
intersection with some existing wall, the split-and-insert path is taken and
committed for every value of the block flag — the stored `canPlaceWall` is
never consulted on this path. -/
theorem C3_split_regardless_of_block (st : GState) (raw : Option PointQ) (s p : PointQ)
    (res : PointQ × ℚ) (bestSeg : Segment) (b : Bool)
    (hmode : st.isDrawingMode = true) (hdraw : st.draw.isDrawing = true)
    (hs : st.draw.startPoint = some s)
    (hsnap : applySnap st.snapGridEnabled (snapPointsOf st.segments) raw = some p)
    (hhit : findBestHit s p st.segments = some (res, bestSeg)) :
    handleClick { st with draw := { st.draw with canPlaceWall := b } } raw =
      { pushHistory st (splitAndInsert st.segments bestSeg (snapToGrid res.1) s
          st.nextId (st.nextId + 1) (st.nextId + 2)) with
        draw := resetDrawing, nextId := st.nextId + 3 } :=
  handleClick_split { st with draw := { st.draw with canPlaceWall := b } } raw s res bestSeg p
    hmode hdraw hs hsnap hhit

/-- C3 (witness): drawing from `(1,-1)` and committing at `(1,1)` across the
wall `(0,0)–(4,0)` splits that wall and inserts the connecting segment even
when the session is flagged as blocked. -/
theorem C3_witness :
    (handleClick { drawingAt stWall (1, -1) with
        draw := { (drawingAt stWall (1, -1)).draw with canPlaceWall := false } }
      (some (1, 1))).segments
      = [⟨2, (0, 0), (1, 0)⟩, ⟨3, (1, 0), (4, 0)⟩, ⟨1, (1, -1), (1, 0)⟩] := by
  rw [C3_split_regardless_of_block (drawingAt stWall (1, -1)) (some (1, 1)) (1, -1) (1, 1)
    ((1, 0), 1/2) wallA false rfl rfl rfl
    (by norm_num [applySnap, snapFold, dSq, snapPointsOf, snapToGrid, drawingAt, stWall, wallA,
      initState, GRID_SIZE, SNAP_RADIUS, round_eq])
    (by norm_num [findBestHit, segmentsIntersectionPoint2DWithT, drawingAt, stWall, wallA,
      initState, EPS])]
  norm_num [pushHistory, splitAndInsert, snapToGrid, drawingAt, stWall, wallA, initState,
    GRID_SIZE, round_eq]

/-- The source's angle threshold is `π/6`. -/
theorem MIN_ANGLE_RAD_eq : MIN_ANGLE_RAD = Real.pi / 6 := by
  unfold MIN_ANGLE_RAD MIN_ANGLE_DEG
  push_cast
  ring

/-- Core analytic fact behind the angle test: for positive squared lengths
`lU`, `lV`, the clamped-arccosine comparison against `π/6` is equivalent to a
polynomial condition on the dot product. -/
theorem arccos_clamp_lt_pi_div_six_iff (dot lU lV : ℝ) (hU : 0 < lU) (hV : 0 < lV) :
    Real.arccos (min 1 (max (-1) (dot / (Real.sqrt lU * Real.sqrt lV)))) < Real.pi / 6 ↔
      0 < dot ∧ 3 * (lU * lV) < 4 * (dot * dot) := by
  have hLpos : 0 < Real.sqrt lU * Real.sqrt lV :=
    mul_pos (Real.sqrt_pos.mpr hU) (Real.sqrt_pos.mpr hV)
  set r : ℝ := dot / (Real.sqrt lU * Real.sqrt lV) with hr
  set x : ℝ := min 1 (max (-1) r) with hxdef
  have hx1 : -1 ≤ x := le_min (by norm_num) (le_max_left _ _)
  have hx2 : x ≤ 1 := min_le_left _ _
  have hmem : Real.arccos x ∈ Set.Icc 0 Real.pi := ⟨Real.arccos_nonneg x, Real.arccos_le_pi x⟩
  have h6 : Real.pi / 6 ∈ Set.Icc 0 Real.pi := by
    constructor
    · positivity
    · linarith [Real.pi_pos]
  have step1 : Real.arccos x < Real.pi / 6 ↔ Real.cos (Real.pi / 6) < x := by
    have h := Real.strictAntiOn_cos.lt_iff_lt h6 hmem
    rw [Real.cos_arccos hx1 hx2] at h
    exact h.symm
  have hsqrt3_lt : Real.sqrt 3 < 2 := by
    rw [Real.sqrt_lt' (by norm_num)]
    norm_num
  have step3 : Real.cos (Real.pi / 6) < x ↔ Real.sqrt 3 / 2 < r := by
    rw [Real.cos_pi_div_six, hxdef, lt_min_iff, lt_max_iff]
    constructor
    · rintro ⟨-, h | h⟩
      · exfalso
        have := Real.sqrt_nonneg 3
        linarith
      · exact h
    · intro h
      exact ⟨by linarith, Or.inr h⟩
  have step4 : Real.sqrt 3 / 2 < r ↔ Real.sqrt (3 * (lU * lV)) < 2 * dot := by
    rw [hr, div_lt_div_iff₀ (by norm_num) hLpos]
    rw [Real.sqrt_mul (by norm_num : (0:ℝ) ≤ 3), Real.sqrt_mul hU.le]
    constructor <;> intro h <;> nlinarith [Real.sqrt_nonneg 3, Real.sqrt_nonneg lU,
      Real.sqrt_nonneg lV]
  have step5 : Real.sqrt (3 * (lU * lV)) < 2 * dot ↔ 0 < dot ∧ 3 * (lU * lV) < 4 * (dot * dot) := by
    constructor
    · intro h
      have hd : 0 < dot := by
        have hs : 0 < Real.sqrt (3 * (lU * lV)) := Real.sqrt_pos.mpr (by positivity)
        linarith
      refine ⟨hd, ?_⟩
      have := (Real.sqrt_lt' (by linarith : (0:ℝ) < 2 * dot)).mp h
      nlinarith
    · rintro ⟨hd, h⟩
      rw [Real.sqrt_lt' (by linarith : (0:ℝ) < 2 * dot)]
      nlinarith
  rw [step1, step3, step4, step5]

/-- The decidable test `tooSharpQ` agrees exactly with the source's comparison
`angleAtVertexDot a b c < MIN_ANGLE_RAD`. -/
theorem tooSharpQ_eq_true_iff (a b c : PointQ) :
    tooSharpQ a b c = true ↔ angleAtVertexDot a b c < MIN_ANGLE_RAD := by
  rw [MIN_ANGLE_RAD_eq]
  by_cases hdeg : a = b ∨ c = b
  · have hq : (a.1 - b.1) * (a.1 - b.1) + (a.2 - b.2) * (a.2 - b.2) = 0 ∨
        (c.1 - b.1) * (c.1 - b.1) + (c.2 - b.2) * (c.2 - b.2) = 0 := by
      rcases hdeg with h | h
      · left; rw [h]; ring
      · right; rw [h]; ring
    simp only [tooSharpQ, angleAtVertexDot]
    rw [if_pos hq, if_pos hdeg]
    exact iff_of_true rfl (div_pos Real.pi_pos (by norm_num))
  · push_neg at hdeg
    have h1 : (a.1 - b.1) * (a.1 - b.1) + (a.2 - b.2) * (a.2 - b.2) ≠ 0 := by
      intro h
      rcases mul_self_add_mul_self_eq_zero.mp h with ⟨hx, hz⟩
      exact hdeg.1 (Prod.ext (by linarith [sub_eq_zero.mp hx]) (by linarith [sub_eq_zero.mp hz]))
    have h2 : (c.1 - b.1) * (c.1 - b.1) + (c.2 - b.2) * (c.2 - b.2) ≠ 0 := by
      intro h
      rcases mul_self_add_mul_self_eq_zero.mp h with ⟨hx, hz⟩
      exact hdeg.2 (Prod.ext (by linarith [sub_eq_zero.mp hx]) (by linarith [sub_eq_zero.mp hz]))
    have hq : ¬((a.1 - b.1) * (a.1 - b.1) + (a.2 - b.2) * (a.2 - b.2) = 0 ∨
        (c.1 - b.1) * (c.1 - b.1) + (c.2 - b.2) * (c.2 - b.2) = 0) := by
      rintro (h | h)
      · exact h1 h
      · exact h2 h
    have hdeg' : ¬(a = b ∨ c = b) := by
      rintro (h | h)
      · exact hdeg.1 h
      · exact hdeg.2 h
    simp only [tooSharpQ, angleAtVertexDot]
    rw [if_neg hq, if_neg hdeg', decide_eq_true_eq]
    have hU : (0:ℝ) < ((a.1 - b.1 : ℚ) : ℝ) * ((a.1 - b.1 : ℚ) : ℝ) +
        ((a.2 - b.2 : ℚ) : ℝ) * ((a.2 - b.2 : ℚ) : ℝ) := by
      have : (0:ℚ) < (a.1 - b.1) * (a.1 - b.1) + (a.2 - b.2) * (a.2 - b.2) :=
        lt_of_le_of_ne (add_nonneg (mul_self_nonneg _) (mul_self_nonneg _)) (Ne.symm h1)
      exact_mod_cast this
    have hV : (0:ℝ) < ((c.1 - b.1 : ℚ) : ℝ) * ((c.1 - b.1 : ℚ) : ℝ) +
        ((c.2 - b.2 : ℚ) : ℝ) * ((c.2 - b.2 : ℚ) : ℝ) := by
      have : (0:ℚ) < (c.1 - b.1) * (c.1 - b.1) + (c.2 - b.2) * (c.2 - b.2) :=
        lt_of_le_of_ne (add_nonneg (mul_self_nonneg _) (mul_self_nonneg _)) (Ne.symm h2)
      exact_mod_cast this
    rw [arccos_clamp_lt_pi_div_six_iff _ _ _ hU hV]
    constructor
    · rintro ⟨hd, hlt⟩
      exact ⟨by exact_mod_cast hd, by exact_mod_cast hlt⟩
    · rintro ⟨hd, hlt⟩
      exact ⟨by exact_mod_cast hd, by exact_mod_cast hlt⟩

/-- C7: during a pointer move while Drawing with an anchored touching wall
`w`, the `tooSharp` flag is set iff the computed angle at the anchor vertex is
strictly less than 30° (`MIN_ANGLE_RAD = π/6`); in particular a candidate at
exactly 30° is not blocked by the angle check. -/
theorem C7_tooSharp_iff_angle_lt (segments : List Segment) (b p : PointQ) (w : Segment)
    (htouch : lastTouching segments b = some w) :
    (moveTooSharp segments b p = true ↔
      angleAtVertexDot (if w.start = b then w.«end» else w.start) b p < MIN_ANGLE_RAD) ∧
    (angleAtVertexDot (if w.start = b then w.«end» else w.start) b p = MIN_ANGLE_RAD →
      moveTooSharp segments b p = false) := by
  have hm : moveTooSharp segments b p
      = tooSharpQ (if w.start = b then w.«end» else w.start) b p := by
    simp [moveTooSharp, htouch]
  refine ⟨by rw [hm]; exact tooSharpQ_eq_true_iff _ _ _, ?_⟩
  intro heq
  rw [hm]
  by_contra hne
  have htrue : tooSharpQ (if w.start = b then w.«end» else w.start) b p = true :=
    Bool.not_eq_false _ |>.mp hne
  have := (tooSharpQ_eq_true_iff _ _ _).mp htrue
  rw [heq] at this
  exact lt_irrefl _ this

/-- C7 (witness): with the wall `(0,0)–(4,0)` anchored at `(4,0)` and the
pointer at `(0,2)` (an angle of about 26.6°), the flag is set and the angle is
indeed below the threshold. -/
theorem C7_witness :
    moveTooSharp [wallA] (4, 0) (0, 2) = true ∧
    angleAtVertexDot (0, 0) (4, 0) (0, 2) < MIN_ANGLE_RAD := by
  have h := C7_tooSharp_iff_angle_lt [wallA] (4, 0) (0, 2) wallA
    (by norm_num [lastTouching, wallA])
  have hms : moveTooSharp [wallA] (4, 0) (0, 2) = true := by
    norm_num [moveTooSharp, lastTouching, tooSharpQ, wallA, Prod.ext_iff]
  have hif : (if wallA.start = ((4 : ℚ), (0 : ℚ)) then wallA.«end» else wallA.start)
      = ((0 : ℚ), (0 : ℚ)) := by
    norm_num [wallA, Prod.ext_iff]
  refine ⟨hms, ?_⟩
  have := h.1.mp hms
  rwa [hif] at this

/-- C9: the block flag is recomputed only on pointer moves. If a start click
anchors the session at a vertex touching the wall `w` and a commit click
follows with no intervening pointer move and no junction hit, the plain append
is committed — even when the angle at the anchor between `w` and the new
segment is strictly below 30° — because `canPlaceWall` still holds the `true`
installed by the start click. -/
theorem C9_commit_without_move_bypasses_angle (st : GState) (raw1 raw2 : Option PointQ)
    (b p : PointQ) (w : Segment)
    (hmode : st.isDrawingMode = true) (hidle : st.draw.isDrawing = false)
    (hsnap1 : applySnap st.snapGridEnabled (snapPointsOf st.segments) raw1 = some b)
    (htouch : lastTouching st.segments b = some w)
    (hsnap2 : applySnap st.snapGridEnabled (snapPointsOf st.segments) raw2 = some p)
    (hhit : findBestHit b p st.segments = none)
    (hangle : angleAtVertexDot (if w.start = b then w.«end» else w.start) b p
      < MIN_ANGLE_RAD) :
    (handleClick st raw1).draw.canPlaceWall = true ∧
    (handleClick (handleClick st raw1) raw2).segments = st.segments ++ [⟨st.nextId, b, p⟩] ∧
    (handleClick (handleClick st raw1) raw2).history = st.history ++ [st.segments] := by
  rw [handleClick_start st raw1 b hmode hidle hsnap1]
  refine ⟨rfl, ?_, ?_⟩ <;>
  · have happ := handleClick_append
      { st with
          selectedId := none,
          draw := { isDrawing := true, startPoint := some b, currentPoint := some b,
                    previewAngle := none, previewBlocked := false, canPlaceWall := true } }
      raw2 b p hmode rfl rfl hsnap2 hhit rfl
    rw [happ]
    simp [pushHistory]

/-- C9 (witness): wall `(0,0)–(4,0)`, start click snapping to its vertex
`(4,0)`, commit click at `(0,2)` with no move in between: the append commits
although the anchor angle (≈26.6°) is below 30°. -/
theorem C9_witness :
    (handleClick (handleClick stWall (some (4, 0))) (some (0, 2))).segments
        = [wallA, ⟨1, (4, 0), (0, 2)⟩] ∧
    angleAtVertexDot (0, 0) (4, 0) (0, 2) < MIN_ANGLE_RAD := by
  have hangle : angleAtVertexDot (0, 0) (4, 0) (0, 2) < MIN_ANGLE_RAD :=
    (tooSharpQ_eq_true_iff (0, 0) (4, 0) (0, 2)).mp (by norm_num [tooSharpQ])
  have hif : (if wallA.start = ((4 : ℚ), (0 : ℚ)) then wallA.«end» else wallA.start)
      = ((0 : ℚ), (0 : ℚ)) := by
    norm_num [wallA, Prod.ext_iff]
  have h := C9_commit_without_move_bypasses_angle stWall (some (4, 0)) (some (0, 2))
    (4, 0) (0, 2) wallA rfl rfl
    (by norm_num [applySnap, snapFold, dSq, snapPointsOf, snapToGrid, stWall, wallA,
      initState, GRID_SIZE, SNAP_RADIUS, round_eq])
    (by norm_num [lastTouching, stWall, wallA, initState])
    (by norm_num [applySnap, snapFold, dSq, snapPointsOf, snapToGrid, stWall, wallA,
      initState, GRID_SIZE, SNAP_RADIUS, round_eq])
    (by norm_num [findBestHit, segmentsIntersectionPoint2DWithT, stWall, wallA,
      initState, EPS])
    (by rw [hif]; exact hangle)
  refine ⟨?_, hangle⟩
  have h2 := h.2.1
  simpa [stWall, wallA, initState] using h2

/-- C4 (counterexample): deleting with an unknown selected id is not a no-op
on the stacks — with one wall, an unknown selection `9` and empty stacks, the
delete pushes a history snapshot (and would also clear a non-empty redo
stack), refuting the claim that undo and redo stacks are left unchanged. -/
theorem C4_counterexample :
    ¬ (∀ st : GState,
        (st.selectedId = none ∨ ∀ seg ∈ st.segments, st.selectedId ≠ some seg.id) →
        (handleDeleteSelected st).segments = st.segments ∧
        (handleDeleteSelected st).history = st.history ∧
        (handleDeleteSelected st).redoStack = st.redoStack) := by
  intro h
  have hh := (h { initState with segments := [wallA], selectedId := some 9 }
    (Or.inr (by
      intro seg hseg
      have hs := List.mem_singleton.mp hseg
      subst hs
      simp [wallA]))).2.1
  simp [handleDeleteSelected, pushHistory, initState, wallA] at hh

/-- C4 (amended): `deleteSegment` is a complete no-op when the selected id is
absent (null). When the id is unknown (no segment carries it), the wall set is
unchanged — the filter removes nothing — but a history snapshot is still
pushed, the redo stack is cleared and the selection is cleared. -/
theorem C4_amended_delete (st : GState) :
    (st.selectedId = none → handleDeleteSelected st = st) ∧
    (∀ sel, st.selectedId = some sel → (∀ seg ∈ st.segments, seg.id ≠ sel) →
      (handleDeleteSelected st).segments = st.segments ∧
      (handleDeleteSelected st).history = st.history ++ [st.segments] ∧
      (handleDeleteSelected st).redoStack = [] ∧
      (handleDeleteSelected st).selectedId = none) := by
  constructor
  · intro h
    simp [handleDeleteSelected, h]
  · intro sel hsel hunk
    have hfilter : (st.segments.filter fun s => s.id ≠ sel) = st.segments := by
      apply List.filter_eq_self.mpr
      intro seg hseg
      simpa using hunk seg hseg
    simp [handleDeleteSelected, hsel, pushHistory, hfilter]
    exact hunk

/-- C4 (amended, witness): the null case really is a no-op, and the
unknown-id case really pushes a snapshot of the unchanged wall set. -/
theorem C4_amended_witness :
    handleDeleteSelected { initState with segments := [wallA] }
        = { initState with segments := [wallA] } ∧
    (handleDeleteSelected { initState with segments := [wallA], selectedId := some 9 }).segments
        = [wallA] ∧
    (handleDeleteSelected { initState with segments := [wallA], selectedId := some 9 }).history
        = [[wallA]] := by
  refine ⟨(C4_amended_delete _).1 rfl, ?_, ?_⟩
  · have h := (C4_amended_delete { initState with segments := [wallA], selectedId := some 9 }).2
      9 rfl (by
        intro seg hseg
        have hs := List.mem_singleton.mp hseg
        subst hs
        simp [wallA])
    exact h.1
  · have h := (C4_amended_delete { initState with segments := [wallA], selectedId := some 9 }).2
      9 rfl (by
        intro seg hseg
        have hs := List.mem_singleton.mp hseg
        subst hs
        simp [wallA])
    simpa [initState] using h.2.1

/-- Commits always leave the redo stack empty. -/
theorem foldl_pushHistory_redo (ws : List (List Segment)) (st : GState)
    (h : st.redoStack = []) : (ws.foldl pushHistory st).redoStack = [] := by
  induction ws generalizing st with
  | nil => exact h
  | cons w ws ih => exact ih _ rfl

/-- Undo followed by redo restores the wall set and the history from any state
whose redo stack is empty, and empties the redo stack again. -/
theorem undo_redo_roundtrip (st : GState) (h : st.redoStack = []) :
    (handleRedo (handleUndo st)).segments = st.segments ∧
    (handleRedo (handleUndo st)).history = st.history ∧
    (handleRedo (handleUndo st)).redoStack = [] := by
  rcases List.eq_nil_or_concat st.history with hnil | ⟨l, e, hl⟩
  · have hu : handleUndo st = st := by
      simp [handleUndo, hnil]
    have hr : handleRedo st = st := by
      simp [handleRedo, h]
    rw [hu, hr]
    exact ⟨rfl, rfl, h⟩
  · have hu : handleUndo st =
        { st with history := l, redoStack := st.segments :: st.redoStack,
                  segments := e, selectedId := none } := by
      simp [handleUndo, hl, List.getLast?_concat, List.dropLast_concat]
    rw [hu, h]
    have hr : handleRedo
        { st with history := l, redoStack := [st.segments], segments := e,
                  selectedId := none } =
        { st with history := l ++ [e], redoStack := [], segments := st.segments,
                  selectedId := none } := by
      simp [handleRedo]
    rw [hr]
    refine ⟨rfl, ?_, rfl⟩
    rw [hl, List.concat_eq_append]

/-- C5: for every sequence of commits from the initial state, `undo(); redo()`
restores the wall set that existed immediately before the `undo()`, leaves the
undo stack exactly as it was, and leaves the redo stack empty — as if the
`redo()` had simply followed the last commit. -/
theorem C5_undo_redo_roundtrip (ws : List (List Segment)) :
    (handleRedo (handleUndo (ws.foldl pushHistory initState))).segments
        = (ws.foldl pushHistory initState).segments ∧
    (handleRedo (handleUndo (ws.foldl pushHistory initState))).history
        = (ws.foldl pushHistory initState).history ∧
    (handleRedo (handleUndo (ws.foldl pushHistory initState))).redoStack = [] :=
  undo_redo_roundtrip _ (foldl_pushHistory_redo ws initState rfl)

/-- Replacing the (counted) target occurrences by two segments grows the list
by the occurrence count. -/
theorem flatMap_replace_length (target : Segment) (X : PointQ) (idA idB : Nat)
    (l : List Segment) :
    (l.flatMap fun s =>
      if s.id = target.id then
        [(⟨idA, target.start, X⟩ : Segment), ⟨idB, X, target.«end»⟩]
      else [s]).length = l.length + (l.countP fun s => s.id = target.id) := by
  induction l with
  | nil => rfl
  | cons s l ih =>
      by_cases h : s.id = target.id <;>
        simp [List.countP_cons, h, ih] <;> omega

/-- C6: after `splitAndInsert(walls, target, X, S)` on a wall set containing
`target` exactly once (by id), the two replacement segments share endpoint `X`
and their other endpoints are `target.start` and `target.end`, a third segment
`S→X` exists, every segment other than `target` is kept unchanged with its
original id, nothing else appears, and the segment count grows by exactly 2. -/
theorem C6_splitAndInsert_spec (segments : List Segment) (target : Segment)
    (X S : PointQ) (idNew idA idB : Nat)
    (hcount : (segments.countP fun s => s.id = target.id) = 1) :
    (splitAndInsert segments target X S idNew idA idB).length = segments.length + 2 ∧
    (⟨idA, target.start, X⟩ : Segment) ∈ splitAndInsert segments target X S idNew idA idB ∧
    (⟨idB, X, target.«end»⟩ : Segment) ∈ splitAndInsert segments target X S idNew idA idB ∧
    (⟨idNew, S, X⟩ : Segment) ∈ splitAndInsert segments target X S idNew idA idB ∧
    (∀ s ∈ segments, s.id ≠ target.id → s ∈ splitAndInsert segments target X S idNew idA idB) ∧
    (∀ s ∈ splitAndInsert segments target X S idNew idA idB,
      s ∈ segments ∨ s = ⟨idA, target.start, X⟩ ∨ s = ⟨idB, X, target.«end»⟩
        ∨ s = ⟨idNew, S, X⟩) := by
  have hex : ∃ t ∈ segments, t.id = target.id := by
    have hpos : 0 < segments.countP fun s => s.id = target.id := by
      rw [hcount]
      norm_num
    obtain ⟨t, ht, hpt⟩ := List.countP_pos_iff.mp hpos
    exact ⟨t, ht, by simpa using hpt⟩
  refine ⟨?_, ?_, ?_, ?_, ?_, ?_⟩
  · unfold splitAndInsert
    rw [List.length_append, flatMap_replace_length, hcount]
    simp
  · obtain ⟨t, ht, htid⟩ := hex
    unfold splitAndInsert
    exact List.mem_append_left _ (List.mem_flatMap.mpr ⟨t, ht, by simp [htid]⟩)
  · obtain ⟨t, ht, htid⟩ := hex
    unfold splitAndInsert
    exact List.mem_append_left _ (List.mem_flatMap.mpr ⟨t, ht, by simp [htid]⟩)
  · unfold splitAndInsert
    apply List.mem_append_right
    simp
  · intro s hs hid
    unfold splitAndInsert
    exact List.mem_append_left _ (List.mem_flatMap.mpr ⟨s, hs, by simp [hid]⟩)
  · intro s hs
    unfold splitAndInsert at hs
    rcases List.mem_append.mp hs with hs | hs
    · obtain ⟨t, ht, hft⟩ := List.mem_flatMap.mp hs
      by_cases hid : t.id = target.id
      · rw [if_pos hid] at hft
        simp only [List.mem_cons, List.mem_singleton, List.not_mem_nil, or_false] at hft
        tauto
      · rw [if_neg hid] at hft
        simp only [List.mem_singleton] at hft
        subst hft
        exact Or.inl ht
    · simp only [List.mem_singleton] at hs
      tauto

/-- C6 (witness): splitting the wall `(0,0)–(4,0)` at `(2,0)` with new start
`(2,-2)` produces exactly the three expected segments. -/
theorem C6_witness :
    splitAndInsert [wallA] wallA (2, 0) (2, -2) 1 2 3
      = [⟨2, (0, 0), (2, 0)⟩, ⟨3, (2, 0), (4, 0)⟩, ⟨1, (2, -2), (2, 0)⟩] ∧
    (splitAndInsert [wallA] wallA (2, 0) (2, -2) 1 2 3).length = [wallA].length + 2 := by
  constructor
  · norm_num [splitAndInsert, wallA]
  · exact (C6_splitAndInsert_spec [wallA] wallA (2, 0) (2, -2) 1 2 3
      (by norm_num [wallA, List.countP_cons, List.countP_nil])).1

/-- The snap loop splits over list concatenation. -/
theorem snapFold_append (p : PointQ) (l₁ l₂ : List PointQ) (m : ℚ) (c : Option PointQ) :
    snapFold p (l₁ ++ l₂) m c
      = snapFold p l₂ (snapFold p l₁ m c).1 (snapFold p l₁ m c).2 := by
  induction l₁ generalizing m c with
  | nil => rfl
  | cons sp l ih =>
      by_cases h : dSq sp p ≤ m <;> simp [snapFold, h, ih]

/-- The running minimum of the snap loop is the fold of `min` over the
candidate distances. -/
theorem snapFold_fst (p : PointQ) (l : List PointQ) : ∀ (m : ℚ) (c : Option PointQ),
    (snapFold p l m c).1 = (l.map fun sp => dSq sp p).foldl min m := by
  induction l with
  | nil => intro m c; rfl
  | cons sp l ih =>
      intro m c
      by_cases h : dSq sp p ≤ m
      · rw [show snapFold p (sp :: l) m c = snapFold p l (dSq sp p) (some sp) from by
          simp [snapFold, h]]
        rw [ih]
        simp [min_eq_right h]
      · rw [show snapFold p (sp :: l) m c = snapFold p l m c from by
          simp [snapFold, h]]
        rw [ih]
        simp [min_eq_left (le_of_not_le h)]

/-- A lower bound of the initial value and of every list element bounds the
`min`-fold. -/
theorem le_foldl_min (l : List ℚ) (a x : ℚ) (hx : x ≤ a) (hl : ∀ y ∈ l, x ≤ y) :
    x ≤ l.foldl min a := by
  induction l generalizing a with
  | nil => exact hx
  | cons y l ih =>
      exact ih (min a y) (le_min hx (hl y (List.mem_cons_self _ _)))
        fun z hz => hl z (List.mem_cons_of_mem _ hz)

/-- Candidates strictly farther than the running minimum never update the
snap loop. -/
theorem snapFold_const (p : PointQ) (l : List PointQ) : ∀ (m : ℚ) (c : Option PointQ),
    (∀ q ∈ l, m < dSq q p) → snapFold p l m c = (m, c) := by
  induction l with
  | nil => intro m c _; rfl
  | cons sp l ih =>
      intro m c h
      have hsp : ¬ dSq sp p ≤ m := not_le.mpr (h sp (List.mem_cons_self _ _))
      rw [show snapFold p (sp :: l) m c = snapFold p l m c from by simp [snapFold, hsp]]
      exact ih m c fun q hq => h q (List.mem_cons_of_mem _ hq)

/-- C2 (counterexample): with grid-snapped point `(0,0)` and the candidates
`(1/4,0)` and `(-1/4,0)` tied at the minimal squared distance `1/16 ≤ radius²`,
`applySnap` returns the second candidate, not the first one in iteration
order — the loop updates on `≤`, so the claim fails as stated. -/
theorem C2_counterexample :
    dSq (1/4, 0) (0, 0) = dSq (-1/4, 0) (0, 0) ∧
    dSq (1/4, 0) (0, 0) ≤ SNAP_RADIUS ^ 2 ∧
    applySnap true [(1/4, 0), (-1/4, 0)] (some (0, 0)) = some (-1/4, 0) ∧
    some ((-1/4 : ℚ), (0 : ℚ)) ≠ some ((1/4 : ℚ), (0 : ℚ)) := by
  norm_num [applySnap, snapFold, dSq, snapToGrid, GRID_SIZE, SNAP_RADIUS, round_eq,
    Prod.ext_iff]

/-- C2 (amended): on exact ties in squared distance the **last** candidate
encountered in iteration order wins: any candidate within the snap radius
whose squared distance is `≤` every earlier candidate's and `<` every later
candidate's is the one returned (the loop updates on `distSq <= minDistSq`,
so a later tie overwrites an earlier one). -/
theorem C2_amended_last_tie_wins (grid : Bool) (l₁ l₂ : List PointQ) (sp p : PointQ)
    (hrad : dSq sp (if grid then snapToGrid p else p) ≤ SNAP_RADIUS ^ 2)
    (hmin₁ : ∀ q ∈ l₁,
      dSq sp (if grid then snapToGrid p else p) ≤ dSq q (if grid then snapToGrid p else p))
    (hmin₂ : ∀ q ∈ l₂,
      dSq sp (if grid then snapToGrid p else p) < dSq q (if grid then snapToGrid p else p)) :
    applySnap grid (l₁ ++ sp :: l₂) (some p) = some sp := by
  set snapped := if grid then snapToGrid p else p with hsn
  have hne : (l₁ ++ sp :: l₂).isEmpty = false := by simp
  have hfold :
      (snapFold snapped (l₁ ++ sp :: l₂) (SNAP_RADIUS ^ 2) none).2 = some sp := by
    rw [snapFold_append]
    have hM₁ : dSq sp snapped ≤ (snapFold snapped l₁ (SNAP_RADIUS ^ 2) none).1 := by
      rw [snapFold_fst]
      refine le_foldl_min _ _ _ hrad ?_
      intro y hy
      obtain ⟨q, hq, rfl⟩ := List.mem_map.mp hy
      exact hmin₁ q hq
    rw [show snapFold snapped (sp :: l₂) (snapFold snapped l₁ (SNAP_RADIUS ^ 2) none).1
          (snapFold snapped l₁ (SNAP_RADIUS ^ 2) none).2
        = snapFold snapped l₂ (dSq sp snapped) (some sp) from by
      simp [snapFold, hM₁]]
    rw [snapFold_const snapped l₂ _ _ fun q hq => hmin₂ q hq]
  simp [applySnap, hne, hfold, hsn]

/-- C2 (amended, witness): three candidates all tied at squared distance
`1/16` from the grid-snapped point `(0,0)` — the last one wins. -/
theorem C2_amended_witness :
    applySnap true [(1/4, 0), (0, 1/4), (-1/4, 0)] (some (0, 0)) = some (-1/4, 0) := by
  have h := C2_amended_last_tie_wins true [(1/4, 0), (0, 1/4)] [] (-1/4, 0) (0, 0)
    (by norm_num [dSq, snapToGrid, GRID_SIZE, SNAP_RADIUS, round_eq])
    (by
      intro q hq
      rcases List.mem_cons.mp hq with h | h
      · subst h; norm_num [dSq, snapToGrid, GRID_SIZE, round_eq]
      · rcases List.mem_singleton.mp h with rfl
        norm_num [dSq, snapToGrid, GRID_SIZE, round_eq])
    (by intro q hq; simp at hq)
  simpa using h

/-- `handleClick` never turns drawing mode on or off. -/
theorem handleClick_isDrawingMode (st : GState) (raw : Option PointQ) :
    (handleClick st raw).isDrawingMode = st.isDrawingMode := by
  unfold handleClick pushHistory
  (repeat' split) <;> rfl

/-- `handleClick` keeps the selection clear: the start click clears it and the
commit paths leave it untouched. -/
theorem handleClick_selectedId_none (st : GState) (raw : Option PointQ)
    (hsel : st.selectedId = none) : (handleClick st raw).selectedId = none := by
  unfold handleClick pushHistory
  (repeat' split) <;> simp [hsel]

/-- `handlePointerMove` only touches the session state. -/
theorem handlePointerMove_eq (st : GState) (raw : Option PointQ) :
    (handlePointerMove st raw).isDrawingMode = st.isDrawingMode ∧
    (handlePointerMove st raw).selectedId = st.selectedId ∧
    (handlePointerMove st raw).segments = st.segments := by
  unfold handlePointerMove
  (repeat' split) <;> exact ⟨rfl, rfl, rfl⟩

/-- Every event preserves the selection invariant. -/
theorem SelInv_step (st : GState) (e : Event) (h : SelInv st) : SelInv (step st e) := by
  obtain ⟨h1, h2⟩ := h
  cases e with
  | enterDraw => exact ⟨fun _ => rfl, Or.inl rfl⟩
  | stopDraw => exact ⟨(fun hm => nomatch hm), h2⟩
  | toggleSnap => exact ⟨fun hm => h1 hm, h2⟩
  | click raw =>
      by_cases hm : st.isDrawingMode = true
      · have hres : (handleClick st raw).selectedId = none :=
          handleClick_selectedId_none st raw (h1 hm)
        exact ⟨fun _ => hres, Or.inl hres⟩
      · have hmf : st.isDrawingMode = false := by
          cases hb : st.isDrawingMode
          · rfl
          · exact absurd hb hm
        show SelInv (handleClick st raw)
        rw [handleClick_mode_off st raw hmf]
        exact ⟨h1, h2⟩
  | move raw =>
      obtain ⟨e1, e2, e3⟩ := handlePointerMove_eq st raw
      show SelInv (handlePointerMove st raw)
      refine ⟨fun hm => ?_, ?_⟩
      · rw [e2]
        exact h1 (by rw [← e1]; exact hm)
      · rcases h2 with hn | ⟨seg, hseg, hid⟩
        · exact Or.inl (by rw [e2]; exact hn)
        · exact Or.inr ⟨seg, by rw [e3]; exact hseg, by rw [e2]; exact hid⟩
  | wallClick i =>
      show SelInv (handleWallClick st i)
      unfold handleWallClick
      by_cases hm : st.isDrawingMode = true
      · rw [if_pos hm]
        exact ⟨h1, h2⟩
      · rw [if_neg hm]
        cases hg : st.segments[i]? with
        | none => exact ⟨h1, h2⟩
        | some seg =>
            have hmem : seg ∈ st.segments := by
              obtain ⟨hlt, he⟩ := List.getElem?_eq_some.mp hg
              rw [← he]
              exact List.getElem_mem hlt
            refine ⟨fun hmode => absurd hmode hm, ?_⟩
            by_cases heq : st.selectedId = some seg.id
            · exact Or.inl (by simp [heq])
            · exact Or.inr ⟨seg, hmem, by simp [heq]⟩
  | undoEv =>
      show SelInv (handleUndo st)
      unfold handleUndo
      cases hg : st.history.getLast? with
      | none => exact ⟨h1, h2⟩
      | some last => exact ⟨fun _ => rfl, Or.inl rfl⟩
  | redoEv =>
      show SelInv (handleRedo st)
      unfold handleRedo
      cases hg : st.redoStack with
      | nil => exact ⟨h1, h2⟩
      | cons next rest => exact ⟨fun _ => rfl, Or.inl rfl⟩
  | deleteEv =>
      show SelInv (handleDeleteSelected st)
      unfold handleDeleteSelected
      cases hsel : st.selectedId with
      | none => exact ⟨h1, h2⟩
      | some sel => exact ⟨fun _ => rfl, Or.inl rfl⟩

/-- The selection invariant propagates along any event sequence. -/
theorem SelInv_foldl (evs : List Event) : ∀ st : GState, SelInv st → SelInv (evs.foldl step st) := by
  induction evs with
  | nil => intro st h; exact h
  | cons e evs ih => intro st h; exact ih _ (SelInv_step st e h)

/-- C10: in every reachable state the selected id is either null or the id of
a segment present in the current wall set — every operation that replaces the
wall set clears the selection or preserves membership, and entering drawing
mode as well as the first click of a placement clear it. -/
theorem C10_selected_id_valid (st : GState) (h : Reachable st) :
    st.selectedId = none ∨ ∃ seg ∈ st.segments, st.selectedId = some seg.id := by
  obtain ⟨evs, rfl⟩ := h
  exact (SelInv_foldl evs initState ⟨fun _ => rfl, Or.inl rfl⟩).2

/-- C10 (witness): the invariant at the concrete reachable state after
entering drawing mode and clicking once. -/
theorem C10_witness :
    (run [.enterDraw, .click (some (0, 0))]).selectedId = none ∨
    ∃ seg ∈ (run [.enterDraw, .click (some (0, 0))]).segments,
      (run [.enterDraw, .click (some (0, 0))]).selectedId = some seg.id :=
  C10_selected_id_valid _ ⟨_, rfl⟩
